import Mathlib

/-!
Shallow embedding of the rule-fixture generator `src/data/generate-test-rules.py`.

Python strings are modelled as lists of characters (`Str`), Python's seeded
pseudorandom source as an explicit entropy stream (`Entropy`, a list of
naturals): each primitive draw consumes one element and reduces it into the
documented range, so every theorem quantifying over the stream covers every
possible sequence of draws.  Python ints are `Int` (arbitrary precision);
the two float literals `0.05` and `0.03` are modelled exactly by their IEEE-754
double values m05/2^57 and m03/2^58, and `int(total_rules * 0.05)` is embedded
as exact integer arithmetic: round the int to a double (round-half-even to 53
significant bits), multiply by the exact constant, round the product again,
truncate toward zero.
-/

abbrev Str := List Char

def lit (s : String) : Str := s.toList

abbrev Entropy := List Nat

/-- One raw draw from the entropy stream (0 when exhausted). -/
def takeNat (s : Entropy) : Nat × Entropy := (s.headD 0, s.tail)

/-- Model of `random.randint(a, b)`: an arbitrary value in `[a, b]` (inclusive). -/
def pyRandint (a b : Nat) (s : Entropy) : Nat × Entropy :=
  (a + s.headD 0 % (b + 1 - a), s.tail)

/-- Model of `random.choice(xs)`: an arbitrary element of `xs`. -/
def pyChoice (xs : List α) (dflt : α) (s : Entropy) : α × Entropy :=
  (xs.getD (s.headD 0 % xs.length) dflt, s.tail)

/-- Model of `random.sample(pop, k)`: `k` distinct elements of `pop`
(our single call site always has `k ≤ pop.length`). -/
def pySample (pop : List α) (dflt : α) : Nat → Entropy → List α × Entropy
  | 0, s => ([], s)
  | k + 1, s =>
    if pop.isEmpty then ([], s)
    else
      let j := s.headD 0 % pop.length
      let x := pop.getD j dflt
      let rest := pySample (pop.eraseIdx j) dflt k s.tail
      (x :: rest.1, rest.2)

/-- Model of `random.shuffle`: an arbitrary permutation driven by the stream.
The fuel argument (instantiated with the list length, which the recursion
preserves exactly) keeps the recursion structural. -/
def pyShuffleAux (dflt : α) : Nat → List α → Entropy → List α × Entropy
  | 0, l, s => (l, s)
  | fuel + 1, l, s =>
    match l with
    | [] => ([], s)
    | x :: xs =>
      let j := s.headD 0 % (x :: xs).length
      let rest := pyShuffleAux dflt fuel ((x :: xs).eraseIdx j) s.tail
      ((x :: xs).getD j dflt :: rest.1, rest.2)

def pyShuffle (dflt : α) (l : List α) (s : Entropy) : List α × Entropy :=
  pyShuffleAux dflt l.length l s

/-! ### Exact model of the two float computations (lines 151-152)

`0.05 : float` is exactly `m05 / 2^57` and `0.03 : float` is exactly
`m03 / 2^58` (their IEEE-754 double values). -/

def m05 : Nat := 7205759403792794

def m03 : Nat := 8646911284551352

/-- Fuel-driven search for the number of low-order bits a 53-bit
significand cannot hold: the smallest t with x / 2^t < 2^53.  The fuel 200
covers every x < 2^253, far beyond anything the generator can produce
(structural recursion keeps the definition kernel-computable). -/
def findShift : Nat → Nat → Nat
  | 0, _ => 0
  | fuel + 1, x => if x < 2 ^ 53 then 0 else findShift fuel (x / 2) + 1

def shiftOf (x : Nat) : Nat := findShift 200 x

/-- Round a natural number to the nearest IEEE-754 double
(53 significant bits, ties to even); the result is returned as the
exact natural number the double denotes. -/
def rndNat53 (x : Nat) : Nat :=
  let t := shiftOf x
  if t = 0 then x
  else
    let q := x / 2 ^ t
    let r := x % 2 ^ t
    let h := 2 ^ (t - 1)
    let q' := if h < r ∨ (r = h ∧ q % 2 = 1) then q + 1 else q
    q' * 2 ^ t

/-- Exact value of Python's `int(float(x) * c)` for `x : Nat` and a positive
float constant `c = m / 2^shift`: convert `x` to a double, multiply (the exact
product is `rndNat53 x * m / 2^shift`), round the product to a double again,
and truncate (floor, as everything is nonnegative). -/
def pyMulTrunc (x m shift : Nat) : Nat :=
  let p := rndNat53 x * m
  let t := shiftOf p
  if t = 0 then p / 2 ^ shift
  else
    let q := p / 2 ^ t
    let r := p % 2 ^ t
    let h := 2 ^ (t - 1)
    let q' := if h < r ∨ (r = h ∧ q % 2 = 1) then q + 1 else q
    q' * 2 ^ t / 2 ^ shift

/-- Line 151: `num_duplicates = int(total_rules * 0.05)`.  Negative ints
mirror Python by symmetry of float rounding and of truncation toward zero. -/
def num_duplicates (total_rules : Int) : Int :=
  if 0 ≤ total_rules then (pyMulTrunc total_rules.toNat m05 57 : Nat)
  else -(pyMulTrunc (-total_rules).toNat m05 57 : Nat)

/-- Line 152: `num_invalid = int(total_rules * 0.03)`. -/
def num_invalid (total_rules : Int) : Int :=
  if 0 ≤ total_rules then (pyMulTrunc total_rules.toNat m03 58 : Nat)
  else -(pyMulTrunc (-total_rules).toNat m03 58 : Nat)

/-- Line 153: `num_valid = total_rules - num_duplicates - num_invalid`. -/
def num_valid (total_rules : Int) : Int :=
  total_rules - num_duplicates total_rules - num_invalid total_rules

/-! ### Data model -/

/-- A scalar Python value. -/
inductive PyScalar where
  | int (n : Int)
  | str (s : Str)
  | bool (b : Bool)
deriving DecidableEq, Repr

/-- A Python value as stored in a condition's `value` slot: the generator
only ever builds scalars or flat lists of scalars. -/
inductive PyVal where
  | scalar (v : PyScalar)
  | list (vs : List PyScalar)
deriving DecidableEq, Repr

/-- One entry of a rule's `conditions` array. -/
structure Condition where
  field : Str
  operator : Str
  value : PyVal
deriving DecidableEq, Repr

/-- A generated rule record. `none` models a key deleted from the dict. -/
structure Rule where
  rule_code : Option Str
  description : Option Str
  conditions : Option (List Condition)
  priority : Int
  enabled : Bool
  tags : List Str
deriving DecidableEq, Repr

def rule0 : Rule :=
  { rule_code := none, description := none, conditions := none
    priority := 0, enabled := false, tags := [] }

/-! ### The fixed vocabularies (lines 16-56) -/

def FAMILIES : List Str :=
  [lit "fraud_detection", lit "customer_segmentation", lit "pricing_engine",
   lit "marketing_automation", lit "risk_assessment", lit "compliance_check",
   lit "payment_processing", lit "inventory_management", lit "order_fulfillment",
   lit "user_authentication"]

def FAMILY_FIELDS (f : Str) : List Str :=
  if f = lit "fraud_detection" then
    [lit "transaction_amount", lit "country", lit "device_fingerprint",
     lit "ip_address", lit "transaction_count_24h"]
  else if f = lit "customer_segmentation" then
    [lit "customer_tier", lit "lifetime_value", lit "account_age_days",
     lit "purchase_frequency", lit "avg_order_value"]
  else if f = lit "pricing_engine" then
    [lit "product_category", lit "quantity", lit "customer_segment",
     lit "season", lit "competitor_price"]
  else if f = lit "marketing_automation" then
    [lit "email_open_rate", lit "click_through_rate", lit "campaign_type",
     lit "customer_engagement_score"]
  else if f = lit "risk_assessment" then
    [lit "credit_score", lit "debt_to_income_ratio", lit "employment_status",
     lit "payment_history_score"]
  else if f = lit "compliance_check" then
    [lit "jurisdiction", lit "document_type", lit "verification_status",
     lit "kyc_level"]
  else if f = lit "payment_processing" then
    [lit "payment_method", lit "amount", lit "currency",
     lit "merchant_category", lit "card_type"]
  else if f = lit "inventory_management" then
    [lit "stock_level", lit "reorder_point", lit "product_category",
     lit "warehouse_location"]
  else if f = lit "order_fulfillment" then
    [lit "order_status", lit "shipping_method", lit "delivery_priority",
     lit "package_weight"]
  else if f = lit "user_authentication" then
    [lit "login_attempts", lit "last_login_days_ago", lit "mfa_enabled",
     lit "account_status"]
  else []

def VECTORIZABLE_OPERATORS : List Str :=
  [lit "EQUAL_TO", lit "NOT_EQUAL_TO", lit "IS_ANY_OF", lit "IS_NONE_OF"]

def NON_VECTORIZABLE_OPERATORS : List Str :=
  [lit "GREATER_THAN", lit "LESS_THAN", lit "BETWEEN"]

def ALL_OPERATORS : List Str := VECTORIZABLE_OPERATORS ++ NON_VECTORIZABLE_OPERATORS

def COUNTRY_VALUES : List PyScalar :=
  [.str (lit "US"), .str (lit "UK"), .str (lit "CA"), .str (lit "DE"),
   .str (lit "FR"), .str (lit "JP"), .str (lit "AU")]

def STATUS_VALUES : List PyScalar :=
  [.str (lit "ACTIVE"), .str (lit "INACTIVE"), .str (lit "PENDING"),
   .str (lit "SUSPENDED")]

/-- The `SAMPLE_VALUES` dict (only the keys the generator actually reads
are ever looked up: "country" and "status"). -/
def SAMPLE_VALUES (key : Str) : Option (List PyScalar) :=
  if key = lit "country" then some COUNTRY_VALUES
  else if key = lit "status" then some STATUS_VALUES
  else if key = lit "tier" then
    some [.str (lit "BRONZE"), .str (lit "SILVER"), .str (lit "GOLD"),
          .str (lit "PLATINUM")]
  else if key = lit "category" then
    some [.str (lit "ELECTRONICS"), .str (lit "CLOTHING"), .str (lit "FOOD"),
          .str (lit "BOOKS"), .str (lit "SPORTS")]
  else if key = lit "method" then
    some [.str (lit "CREDIT_CARD"), .str (lit "DEBIT_CARD"), .str (lit "PAYPAL"),
          .str (lit "WIRE_TRANSFER")]
  else if key = lit "boolean" then some [.bool true, .bool false]
  else none

/-- Model of `str.endswith`. -/
def strEndsWith (s suffixStr : Str) : Bool := suffixStr.isSuffixOf s

/-- Model of Python's `pat in s` substring test. -/
def strContains (pat : Str) : Str → Bool
  | [] => pat.isEmpty
  | c :: cs => pat.isPrefixOf (c :: cs) || strContains pat cs

/-! ### generate_rule (lines 58-143) -/

/-- Decimal digits of a natural number (Python `str(n)` / `{n}` formatting). -/
def natStr (n : Nat) : Str := Nat.toDigits 10 n

/-- Python `{:04d}` formatting: left-pad the decimal digits with zeros to
width 4 (wider numbers are kept unchanged). -/
def pad4 (n : Nat) : Str :=
  let d := natStr n
  List.replicate (4 - d.length) '0' ++ d

/-- The rule code string `f"{family}.rule_{n:04d}"`. -/
def mkRuleCode (family : Str) (n : Nat) : Str :=
  family ++ lit ".rule_" ++ pad4 n

/-- Python `str.title()` on the ASCII letters-and-spaces strings the
generator produces: a letter after a non-letter is uppercased, a letter
after a letter is lowercased. -/
def pyTitleGo : Bool → Str → Str
  | _, [] => []
  | prevAlpha, c :: cs =>
    (if prevAlpha then c.toLower else c.toUpper) :: pyTitleGo c.isAlpha cs

def pyTitle (s : Str) : Str := pyTitleGo false s

/-- Line 102: `f"{family.replace('_', ' ').title()} Rule {rule_num}"`. -/
def mkDescription (family : Str) (rule_num : Nat) : Str :=
  pyTitle (family.map (fun c => if c = '_' then ' ' else c)) ++
    lit " Rule " ++ natStr rule_num

/-- Lines 106-114: the tags list with its conditional extensions. -/
def mkTags (family : Str) (rule_num : Nat) : List Str :=
  let tags := [family, lit "batch_" ++ natStr (rule_num / 100)]
  let tags :=
    if rule_num % 10 = 0 then
      tags ++ [lit "production-critical", lit "high-priority"]
    else tags
  if rule_num % 7 = 0 then tags ++ [lit "vectorized"] else tags

/-- One pass of the condition loop body (lines 74-97). -/
def genCondition (fields : List Str) (s : Entropy) : Condition × Entropy :=
  let fc := pyChoice fields [] s
  let oc := pyChoice ALL_OPERATORS [] fc.2
  if oc.1 = lit "IS_ANY_OF" ∨ oc.1 = lit "IS_NONE_OF" then
    let kc := pyRandint 2 4 oc.2
    let vc := pySample ((SAMPLE_VALUES (lit "country")).getD
        [.str (lit "US"), .str (lit "UK"), .str (lit "CA")]) (.str (lit "US")) kc.1 kc.2
    ({ field := fc.1, operator := oc.1, value := .list vc.1 }, vc.2)
  else if oc.1 = lit "BETWEEN" then
    let minc := pyRandint 100 5000 oc.2
    let maxc := pyRandint 1000 5000 minc.2
    ({ field := fc.1, operator := oc.1,
       value := .list [.int (minc.1 : Int), .int ((minc.1 : Int) + maxc.1)] }, maxc.2)
  else if strContains (lit "THAN") oc.1 then
    let vc := pyRandint 100 10000 oc.2
    ({ field := fc.1, operator := oc.1, value := .scalar (.int (vc.1 : Int)) }, vc.2)
  else if strEndsWith fc.1 (lit "_enabled") || strEndsWith fc.1 (lit "mfa_enabled") then
    let bc := pyChoice [true, false] true oc.2
    ({ field := fc.1, operator := oc.1, value := .scalar (.bool bc.1) }, bc.2)
  else
    let vc := pyChoice ((SAMPLE_VALUES (lit "status")).getD
        [.str (lit "ACTIVE"), .str (lit "PENDING")]) (.str (lit "ACTIVE")) oc.2
    ({ field := fc.1, operator := oc.1, value := .scalar vc.1 }, vc.2)

/-- The `for _ in range(num_conditions)` loop (lines 74-97). -/
def genConditions (fields : List Str) : Nat → Entropy → List Condition × Entropy
  | 0, s => ([], s)
  | k + 1, s =>
    let c := genCondition fields s
    let rest := genConditions fields k c.2
    (c.1 :: rest.1, rest.2)

/-- The seven corruption labels of lines 118-126. -/
def INVALID_KINDS : List Str :=
  [lit "missing_rule_code", lit "missing_description", lit "missing_conditions",
   lit "empty_conditions", lit "invalid_priority_high", lit "invalid_priority_low",
   lit "invalid_priority_negative"]

/-- The if/elif chain of lines 128-141. -/
def applyCorruption (invalid_type : Str) (rule : Rule) : Rule :=
  if invalid_type = lit "missing_rule_code" then { rule with rule_code := none }
  else if invalid_type = lit "missing_description" then { rule with description := none }
  else if invalid_type = lit "missing_conditions" then { rule with conditions := none }
  else if invalid_type = lit "empty_conditions" then { rule with conditions := some [] }
  else if invalid_type = lit "invalid_priority_high" then { rule with priority := 1500 }
  else if invalid_type = lit "invalid_priority_low" then { rule with priority := -10 }
  else if invalid_type = lit "invalid_priority_negative" then { rule with priority := -100 }
  else rule

/-- Lines 58-143: generate a single rule. -/
def generate_rule (rule_num : Nat) (family : Str) (is_duplicate is_invalid : Bool)
    (s : Entropy) : Rule × Entropy :=
  let code :=
    if is_duplicate then
      let off := pyRandint 100 500 s
      (mkRuleCode family (Int.toNat (max 1 ((rule_num : Int) - (off.1 : Int)))), off.2)
    else (mkRuleCode family rule_num, s)
  let nc := pyRandint 1 4 code.2
  let conds := genConditions (FAMILY_FIELDS family) nc.1 nc.2
  let prio := pyRandint 1 1000 conds.2
  let en := pyChoice [true, true, true, false] true prio.2
  let rule : Rule :=
    { rule_code := some code.1
      description := some (mkDescription family rule_num)
      conditions := some conds.1
      priority := (prio.1 : Int)
      enabled := en.1
      tags := mkTags family rule_num }
  if is_invalid then
    let kind := pyChoice INVALID_KINDS [] en.2
    (applyCorruption kind.1 rule, kind.2)
  else (rule, en.2)

/-! ### generate_test_file (lines 145-218) -/

/-- One of the three `for i in range(...)` generation loops (lines 160-180):
`count` rules, family chosen round-robin by loop index `i`, rule numbers
continuing from `rule_num`. -/
def generateLoop : Nat → Nat → Nat → Bool → Bool → Entropy → List Rule × Entropy
  | 0, _, _, _, _, s => ([], s)
  | k + 1, i, rule_num, is_duplicate, is_invalid, s =>
    let family := FAMILIES.getD (i % FAMILIES.length) []
    let r := generate_rule rule_num family is_duplicate is_invalid s
    let rest := generateLoop k (i + 1) (rule_num + 1) is_duplicate is_invalid r.2
    (r.1 :: rest.1, rest.2)

/-- The whole record-list construction (lines 155-180), before shuffling:
valid rules numbered from 1, then duplicates, then invalid rules. -/
def generate_rules (nv nd ni : Nat) (s : Entropy) : List Rule × Entropy :=
  let v := generateLoop nv 0 1 false false s
  let d := generateLoop nd 0 (nv + 1) true false v.2
  let iv := generateLoop ni 0 (nv + nd + 1) false true d.2
  (v.1 ++ d.1 ++ iv.1, iv.2)

/-- Line 201: `sum(1 for r in rules if r.get("rule_code", "").startswith(family))`. -/
def familyCount (rules : List Rule) (family : Str) : Nat :=
  (rules.filter (fun r => family.isPrefixOf (r.rule_code.getD []))).length

/-- The companion stats object (lines 192-202). -/
structure Stats where
  total_rules : Int
  valid_rules : Int
  duplicate_rules : Int
  invalid_rules : Int
  families : List (Str × Nat)
deriving DecidableEq, Repr

/-- Lines 145-207: the full pipeline, returning the shuffled record list
(the JSONL lines, in order) and the stats object.  A negative partition
size makes the corresponding Python `range` empty, hence `Int.toNat`. -/
def generate_test_file (total_rules : Int) (s : Entropy) : List Rule × Stats :=
  let nd := num_duplicates total_rules
  let ni := num_invalid total_rules
  let nv := num_valid total_rules
  let g := generate_rules nv.toNat nd.toNat ni.toNat s
  let sh := pyShuffle rule0 g.1 g.2
  (sh.1,
   { total_rules := total_rules, valid_rules := nv, duplicate_rules := nd,
     invalid_rules := ni,
     families := FAMILIES.map (fun f => (f, familyCount sh.1 f)) })

/-- Python `str.replace(pat, rep)`: replace all non-overlapping occurrences,
left to right (for a nonempty pattern, the only use in this program). -/
def replaceAll (pat rep : Str) : Str → Str
  | [] => []
  | c :: cs =>
    if pat ≠ [] ∧ pat.isPrefixOf (c :: cs) then
      rep ++ replaceAll pat rep ((c :: cs).drop pat.length)
    else c :: replaceAll pat rep cs
termination_by s => s.length
decreasing_by
  · rename_i h
    have : 1 ≤ pat.length := by
      cases pat with
      | nil => exact absurd rfl h.1
      | cons a l => simp
    simp [List.length_drop]
    omega
  · simp

/-- Line 205: `stats_filename = filename.replace('.jsonl', '_stats.json')`. -/
def stats_filename (filename : Str) : Str :=
  replaceAll (lit ".jsonl") (lit "_stats.json") filename

/-! ### Specification predicates for the claims -/

/-- C3's value-shape contract for one condition: BETWEEN carries a
two-element numeric [min, max] list with min ≤ max; the set operators
carry a list of 2 to 4 entries; other operators are unconstrained. -/
def valueShapeOkB (c : Condition) : Bool :=
  if c.operator = lit "BETWEEN" then
    match c.value with
    | .list [.int a, .int b] => decide (a ≤ b)
    | _ => false
  else if c.operator = lit "IS_ANY_OF" ∨ c.operator = lit "IS_NONE_OF" then
    match c.value with
    | .list vs => decide (2 ≤ vs.length) && decide (vs.length ≤ 4)
    | _ => false
  else true

/-- C3's record-level contract: when `conditions` is present and nonempty,
its length is in [1, 4] and every member satisfies the shape contract. -/
def condsOkB (r : Rule) : Bool :=
  match r.conditions with
  | none => true
  | some [] => true
  | some l => decide (1 ≤ l.length) && decide (l.length ≤ 4) && l.all valueShapeOkB

/-- C9's stronger per-condition contract: set-operator values are pairwise
distinct and drawn from the 7 country codes; BETWEEN has max - min in
[1000, 5000], hence min < max. -/
def valueStrongOkB (c : Condition) : Bool :=
  if c.operator = lit "BETWEEN" then
    match c.value with
    | .list [.int a, .int b] =>
      decide (1000 ≤ b - a) && decide (b - a ≤ 5000) && decide (a < b)
    | _ => false
  else if c.operator = lit "IS_ANY_OF" ∨ c.operator = lit "IS_NONE_OF" then
    match c.value with
    | .list vs => decide vs.Nodup && vs.all (fun v => decide (v ∈ COUNTRY_VALUES))
    | _ => false
  else true

/-- C9 at record level, over whatever conditions survive corruption. -/
def strongCondsOkB (r : Rule) : Bool :=
  match r.conditions with
  | none => true
  | some l => l.all valueStrongOkB

/-- Priority in the documented valid range [1, 1000]. -/
def priorityInRangeB (r : Rule) : Bool :=
  decide (1 ≤ r.priority) && decide (r.priority ≤ 1000)

/-- Conditions present, nonempty (length in [1,4]) and shape-correct. -/
def condsFullOkB (r : Rule) : Bool :=
  match r.conditions with
  | some l => decide (1 ≤ l.length) && decide (l.length ≤ 4) && l.all valueShapeOkB
  | none => false

/-- How many of the seven corruptions a record exhibits (the three priority
corruptions are told apart by the exact value the code writes). -/
def corruptionCount (r : Rule) : Nat :=
  (if r.rule_code = none then 1 else 0) + (if r.description = none then 1 else 0) +
  (if r.conditions = none then 1 else 0) + (if r.conditions = some [] then 1 else 0) +
  (if r.priority = 1500 then 1 else 0) + (if r.priority = -10 then 1 else 0) +
  (if r.priority = -100 then 1 else 0)

/-- C4: exactly one corruption, and every field not targeted by it is
well-formed. -/
def invalidOkB (r : Rule) : Bool :=
  decide (corruptionCount r = 1) &&
  (if r.rule_code = none then
    r.description.isSome && condsFullOkB r && priorityInRangeB r else true) &&
  (if r.description = none then
    r.rule_code.isSome && condsFullOkB r && priorityInRangeB r else true) &&
  (if r.conditions = none ∨ r.conditions = some [] then
    r.rule_code.isSome && r.description.isSome && priorityInRangeB r else true) &&
  (if r.priority = 1500 ∨ r.priority = -10 ∨ r.priority = -100 then
    r.rule_code.isSome && r.description.isSome && condsFullOkB r else true)

/-- C7: the tag contract of a record generated with the given family and
rule number. -/
def tagsSpec (r : Rule) (family : Str) (rule_num : Nat) : Prop :=
  family ∈ r.tags ∧
  (lit "batch_" ++ natStr (rule_num / 100)) ∈ r.tags ∧
  ((lit "production-critical" ∈ r.tags ∧ lit "high-priority" ∈ r.tags) ↔
    rule_num % 10 = 0) ∧
  (lit "vectorized" ∈ r.tags ↔ rule_num % 7 = 0)

/-! ### Basic lemmas about the random primitives -/

theorem pyRandint_bounds (a b : Nat) (s : Entropy) (h : a ≤ b) :
    a ≤ (pyRandint a b s).1 ∧ (pyRandint a b s).1 ≤ b := by
  unfold pyRandint
  have hm : s.headD 0 % (b + 1 - a) < b + 1 - a := Nat.mod_lt _ (by omega)
  constructor
  · simp
  · simp only
    omega

theorem perm_getD_cons_eraseIdx (l : List α) (j : Nat) (d : α) (h : j < l.length) :
    l.Perm (l.getD j d :: l.eraseIdx j) := by
  induction l generalizing j with
  | nil => simp at h
  | cons x xs ih =>
    cases j with
    | zero => simp [List.getD]
    | succ j =>
      simp only [List.length_cons] at h
      have hj : j < xs.length := by omega
      have hperm := ih j hj
      have h1 : List.Perm (x :: xs) (x :: (xs.getD j d :: xs.eraseIdx j)) := hperm.cons x
      have h2 : List.Perm (x :: (xs.getD j d :: xs.eraseIdx j))
          (xs.getD j d :: (x :: xs.eraseIdx j)) := List.Perm.swap _ _ _
      simpa using h1.trans h2

theorem pyShuffleAux_perm (d : α) (fuel : Nat) :
    ∀ (l : List α) (s : Entropy), l.length ≤ fuel →
      ((pyShuffleAux d fuel l s).1).Perm l := by
  induction fuel with
  | zero =>
    intro l s _
    rw [pyShuffleAux]
  | succ fuel ih =>
    intro l s h
    cases l with
    | nil => rw [pyShuffleAux]
    | cons x xs =>
      rw [pyShuffleAux]
      have hjlt : s.headD 0 % (x :: xs).length < (x :: xs).length :=
        Nat.mod_lt _ (by simp)
      have hlen := List.length_eraseIdx_add_one hjlt
      have hperm := ih ((x :: xs).eraseIdx (s.headD 0 % (x :: xs).length)) s.tail
        (by omega)
      exact (hperm.cons _).trans (perm_getD_cons_eraseIdx _ _ d hjlt).symm

theorem pyShuffle_perm (d : α) (l : List α) (s : Entropy) :
    ((pyShuffle d l s).1).Perm l :=
  pyShuffleAux_perm d l.length l s (Nat.le_refl _)

theorem pySample_length (d : α) (k : Nat) :
    ∀ (pop : List α) (s : Entropy), k ≤ pop.length →
      ((pySample pop d k s).1).length = k := by
  induction k with
  | zero => intro pop s _; rfl
  | succ k ih =>
    intro pop s h
    cases pop with
    | nil => simp at h
    | cons p ps =>
      rw [pySample]
      simp only [List.isEmpty_cons, Bool.false_eq_true, if_false, List.length_cons]
      have hjlt : s.headD 0 % (p :: ps).length < (p :: ps).length :=
        Nat.mod_lt _ (by simp)
      have hlen := List.length_eraseIdx_add_one hjlt
      rw [ih _ _ (by simp only [List.length_cons] at h hlen ⊢; omega)]

theorem pySample_nodup_mem (d : α) (k : Nat) :
    ∀ (pop : List α) (s : Entropy), pop.Nodup →
      ((pySample pop d k s).1).Nodup ∧
        ∀ x ∈ (pySample pop d k s).1, x ∈ pop := by
  induction k with
  | zero => intro pop s _; exact ⟨List.nodup_nil, by simp [pySample]⟩
  | succ k ih =>
    intro pop s hnd
    cases pop with
    | nil => rw [pySample]; simp
    | cons p ps =>
      rw [pySample]
      simp only [List.isEmpty_cons, Bool.false_eq_true, if_false, if_neg, reduceIte]
      have hjlt : s.headD 0 % (p :: ps).length < (p :: ps).length :=
        Nat.mod_lt _ (by simp)
      have hperm := perm_getD_cons_eraseIdx (p :: ps) (s.headD 0 % (p :: ps).length) d hjlt
      have hnd2 := hperm.nodup_iff.mp hnd
      rw [List.nodup_cons] at hnd2
      have hrec := ih ((p :: ps).eraseIdx (s.headD 0 % (p :: ps).length)) s.tail hnd2.2
      constructor
      · rw [List.nodup_cons]
        exact ⟨fun hx => hnd2.1 (hrec.2 _ hx), hrec.1⟩
      · intro x hx
        rw [List.mem_cons] at hx
        rcases hx with rfl | hx
        · exact hperm.mem_iff.mpr (List.mem_cons_self _ _)
        · exact hperm.mem_iff.mpr (List.mem_cons_of_mem _ (hrec.2 _ hx))

/-! ### Condition-level lemmas -/

theorem genCondition_ok (fields : List Str) (s : Entropy) :
    valueShapeOkB (genCondition fields s).1 = true ∧
      valueStrongOkB (genCondition fields s).1 = true := by
  unfold genCondition
  dsimp only
  set fc := pyChoice fields [] s with hfc
  set oc := pyChoice ALL_OPERATORS [] fc.2 with hoc
  split
  next h =>
    set kc := pyRandint 2 4 oc.2 with hkc
    obtain ⟨hk2, hk4⟩ := pyRandint_bounds 2 4 oc.2 (by norm_num)
    rw [← hkc] at hk2 hk4
    have hpop : (SAMPLE_VALUES (lit "country")).getD
        [.str (lit "US"), .str (lit "UK"), .str (lit "CA")] = COUNTRY_VALUES := rfl
    set vc := pySample ((SAMPLE_VALUES (lit "country")).getD
        [.str (lit "US"), .str (lit "UK"), .str (lit "CA")]) (.str (lit "US")) kc.1 kc.2 with hvc
    have hlen : vc.1.length = kc.1 := by
      rw [hvc]
      apply pySample_length
      rw [hpop]
      have : COUNTRY_VALUES.length = 7 := rfl
      omega
    have hnodup := pySample_nodup_mem (PyScalar.str (lit "US")) kc.1
      ((SAMPLE_VALUES (lit "country")).getD
        [.str (lit "US"), .str (lit "UK"), .str (lit "CA")]) kc.2
      (by rw [hpop]; decide)
    rw [← hvc] at hnodup
    rw [hpop] at hnodup
    have hne : ¬ (oc.1 = lit "BETWEEN") := by
      rcases h with h | h <;> rw [h] <;> decide
    constructor
    · simp only [valueShapeOkB, hne, if_false, if_neg, h, if_pos, if_true]
      simp only [Bool.and_eq_true, decide_eq_true_eq]
      omega
    · simp only [valueStrongOkB, hne, if_false, if_neg, h, if_pos, if_true]
      simp only [Bool.and_eq_true, decide_eq_true_eq]
      refine ⟨hnodup.1, ?_⟩
      rw [List.all_eq_true]
      intro x hx
      simp only [decide_eq_true_eq]
      exact hnodup.2 x hx
  next h =>
    split
    next hb =>
      set minc := pyRandint 100 5000 oc.2 with hminc
      set maxc := pyRandint 1000 5000 minc.2 with hmaxc
      obtain ⟨hmn1, hmn2⟩ := pyRandint_bounds 100 5000 oc.2 (by norm_num)
      obtain ⟨hmx1, hmx2⟩ := pyRandint_bounds 1000 5000 minc.2 (by norm_num)
      rw [← hminc] at hmn1 hmn2
      rw [← hmaxc] at hmx1 hmx2
      constructor
      · simp only [valueShapeOkB, hb, if_pos, if_true, decide_eq_true_eq]
        omega
      · simp only [valueStrongOkB, hb, if_pos, if_true]
        simp only [Bool.and_eq_true, decide_eq_true_eq]
        omega
    next hb =>
      split
      · constructor
        · simp only [valueShapeOkB, hb, if_false, if_neg, h]
        · simp only [valueStrongOkB, hb, if_false, if_neg, h]
      · split
        · constructor
          · simp only [valueShapeOkB, hb, if_false, if_neg, h]
          · simp only [valueStrongOkB, hb, if_false, if_neg, h]
        · constructor
          · simp only [valueShapeOkB, hb, if_false, if_neg, h]
          · simp only [valueStrongOkB, hb, if_false, if_neg, h]

theorem genConditions_length (fields : List Str) (k : Nat) (s : Entropy) :
    ((genConditions fields k s).1).length = k := by
  induction k generalizing s with
  | zero => rfl
  | succ k ih => simp [genConditions, ih]

theorem genConditions_all (fields : List Str) (k : Nat) (s : Entropy) :
    ∀ c ∈ (genConditions fields k s).1,
      valueShapeOkB c = true ∧ valueStrongOkB c = true := by
  induction k generalizing s with
  | zero => intro c hc; simp [genConditions] at hc
  | succ k ih =>
    intro c hc
    rw [genConditions] at hc
    rcases List.mem_cons.mp hc with rfl | hc
    · exact genCondition_ok fields s
    · exact ih _ c hc

/-! ### generate_rule structure lemmas -/

theorem applyCorruption_tags (k : Str) (r : Rule) :
    (applyCorruption k r).tags = r.tags := by
  unfold applyCorruption
  repeat' split
  all_goals rfl

theorem applyCorruption_nil (r : Rule) : applyCorruption (lit "") r = r := rfl

theorem pyChoice_mem (xs : List α) (dflt : α) (s : Entropy) (h : xs ≠ []) :
    (pyChoice xs dflt s).1 ∈ xs := by
  unfold pyChoice
  have hlt : s.headD 0 % xs.length < xs.length := by
    apply Nat.mod_lt
    cases xs
    · exact absurd rfl h
    · simp
  rw [List.getD_eq_getElem?_getD, List.getElem?_eq_getElem hlt]
  exact List.getElem_mem hlt

theorem generate_rule_spec (n : Nat) (fam : Str) (d iv : Bool) (s : Entropy) :
    ∃ (conds : List Condition) (prio : Nat) (en : Bool) (m : Nat) (kind : Str),
      1 ≤ conds.length ∧ conds.length ≤ 4 ∧
      (∀ c ∈ conds, valueShapeOkB c = true ∧ valueStrongOkB c = true) ∧
      1 ≤ prio ∧ prio ≤ 1000 ∧
      (iv = false → kind = lit "") ∧
      (iv = true → kind ∈ INVALID_KINDS) ∧
      (generate_rule n fam d iv s).1 = applyCorruption kind
        { rule_code := some (mkRuleCode fam m),
          description := some (mkDescription fam n),
          conditions := some conds,
          priority := (prio : Int),
          enabled := en,
          tags := mkTags fam n } := by
  unfold generate_rule
  dsimp only
  cases d with
  | false =>
    simp only [Bool.false_eq_true, if_false]
    set nc := pyRandint 1 4 s with hnc
    set conds := genConditions (FAMILY_FIELDS fam) nc.1 nc.2 with hconds
    set prio := pyRandint 1 1000 conds.2 with hprio
    set en := pyChoice [true, true, true, false] true prio.2 with hen
    obtain ⟨ha, hb⟩ := pyRandint_bounds 1 4 s (by norm_num)
    rw [← hnc] at ha hb
    obtain ⟨hp1, hp2⟩ := pyRandint_bounds 1 1000 conds.2 (by norm_num)
    rw [← hprio] at hp1 hp2
    have hlen := genConditions_length (FAMILY_FIELDS fam) nc.1 nc.2
    have hall := genConditions_all (FAMILY_FIELDS fam) nc.1 nc.2
    rw [← hconds] at hlen hall
    cases iv with
    | false =>
      simp only [Bool.false_eq_true, if_false]
      exact ⟨conds.1, prio.1, en.1, n, lit "",
        by omega, by omega, hall, hp1, hp2, fun _ => rfl, by simp,
        (applyCorruption_nil _).symm⟩
    | true =>
      simp only [if_true]
      set kind := pyChoice INVALID_KINDS [] en.2 with hkind
      exact ⟨conds.1, prio.1, en.1, n, kind.1,
        by omega, by omega, hall, hp1, hp2, by simp,
        fun _ => pyChoice_mem INVALID_KINDS [] en.2 (by decide), rfl⟩
  | true =>
    simp only [if_true]
    set off := pyRandint 100 500 s with hoff
    set nc := pyRandint 1 4 off.2 with hnc
    set conds := genConditions (FAMILY_FIELDS fam) nc.1 nc.2 with hconds
    set prio := pyRandint 1 1000 conds.2 with hprio
    set en := pyChoice [true, true, true, false] true prio.2 with hen
    obtain ⟨ha, hb⟩ := pyRandint_bounds 1 4 off.2 (by norm_num)
    rw [← hnc] at ha hb
    obtain ⟨hp1, hp2⟩ := pyRandint_bounds 1 1000 conds.2 (by norm_num)
    rw [← hprio] at hp1 hp2
    have hlen := genConditions_length (FAMILY_FIELDS fam) nc.1 nc.2
    have hall := genConditions_all (FAMILY_FIELDS fam) nc.1 nc.2
    rw [← hconds] at hlen hall
    cases iv with
    | false =>
      simp only [Bool.false_eq_true, if_false]
      exact ⟨conds.1, prio.1, en.1, Int.toNat (max 1 ((n : Int) - (off.1 : Int))), lit "",
        by omega, by omega, hall, hp1, hp2, fun _ => rfl, by simp,
        (applyCorruption_nil _).symm⟩
    | true =>
      simp only [if_true]
      set kind := pyChoice INVALID_KINDS [] en.2 with hkind
      exact ⟨conds.1, prio.1, en.1, Int.toNat (max 1 ((n : Int) - (off.1 : Int))), kind.1,
        by omega, by omega, hall, hp1, hp2, by simp,
        fun _ => pyChoice_mem INVALID_KINDS [] en.2 (by decide), rfl⟩

theorem applyCorruption_code (k : Str) (r : Rule) :
    (applyCorruption k r).rule_code = r.rule_code ∨
      (applyCorruption k r).rule_code = none := by
  unfold applyCorruption
  repeat' split
  all_goals simp

theorem applyCorruption_conditions (k : Str) (r : Rule) :
    (applyCorruption k r).conditions = r.conditions ∨
      (applyCorruption k r).conditions = none ∨
      (applyCorruption k r).conditions = some [] := by
  unfold applyCorruption
  repeat' split
  all_goals simp

theorem cons_ne_cons_of_head {a b : Char} {l1 l2 : Str} (h : a ≠ b) :
    (a :: l1) ≠ (b :: l2) := by
  intro he
  injection he with h1 _
  exact h h1

theorem condsOkB_some_cons (rc dsc : Option Str) (c : Condition) (cs : List Condition)
    (p : Int) (e : Bool) (tg : List Str) (h4 : (c :: cs).length ≤ 4)
    (hall : ∀ x ∈ c :: cs, valueShapeOkB x = true) :
    condsOkB { rule_code := rc, description := dsc, conditions := some (c :: cs),
               priority := p, enabled := e, tags := tg } = true := by
  simp only [condsOkB, Bool.and_eq_true, decide_eq_true_eq, List.all_eq_true]
  exact ⟨⟨by simp, h4⟩, hall⟩

theorem generate_rule_condsOk (n : Nat) (fam : Str) (d iv : Bool) (s : Entropy) :
    condsOkB (generate_rule n fam d iv s).1 = true := by
  obtain ⟨conds, prio, en, m, kind, h1, h4, hall, hp1, hp2, hf, ht, heq⟩ :=
    generate_rule_spec n fam d iv s
  rw [heq]
  cases conds with
  | nil => simp at h1
  | cons c cs =>
    rcases applyCorruption_conditions kind
      { rule_code := some (mkRuleCode fam m), description := some (mkDescription fam n),
        conditions := some (c :: cs), priority := (prio : Int), enabled := en,
        tags := mkTags fam n } with hc | hc | hc
    · unfold condsOkB
      rw [hc]
      simp only [Bool.and_eq_true, decide_eq_true_eq, List.all_eq_true]
      exact ⟨⟨by simp, h4⟩, fun x hx => (hall x hx).1⟩
    · unfold condsOkB
      rw [hc]
    · unfold condsOkB
      rw [hc]

theorem generate_rule_strongOk (n : Nat) (fam : Str) (d iv : Bool) (s : Entropy) :
    strongCondsOkB (generate_rule n fam d iv s).1 = true := by
  obtain ⟨conds, prio, en, m, kind, h1, h4, hall, hp1, hp2, hf, ht, heq⟩ :=
    generate_rule_spec n fam d iv s
  rw [heq]
  rcases applyCorruption_conditions kind
    { rule_code := some (mkRuleCode fam m), description := some (mkDescription fam n),
      conditions := some conds, priority := (prio : Int), enabled := en,
      tags := mkTags fam n } with hc | hc | hc <;> unfold strongCondsOkB <;> rw [hc]
  · rw [List.all_eq_true]
    exact fun x hx => (hall x hx).2
  · rfl

theorem generate_rule_code_shape (n : Nat) (fam : Str) (d iv : Bool) (s : Entropy) :
    (generate_rule n fam d iv s).1.rule_code = none ∨
      ∃ t, (generate_rule n fam d iv s).1.rule_code = some (fam ++ t) := by
  obtain ⟨conds, prio, en, m, kind, h1, h4, hall, hp1, hp2, hf, ht, heq⟩ :=
    generate_rule_spec n fam d iv s
  rw [heq]
  rcases applyCorruption_code kind
    { rule_code := some (mkRuleCode fam m), description := some (mkDescription fam n),
      conditions := some conds, priority := (prio : Int), enabled := en,
      tags := mkTags fam n } with hc | hc
  · right
    refine ⟨lit ".rule_" ++ pad4 m, ?_⟩
    rw [hc]
    simp [mkRuleCode, List.append_assoc]
  · left
    exact hc

theorem generate_rule_tags (n : Nat) (fam : Str) (d iv : Bool) (s : Entropy) :
    (generate_rule n fam d iv s).1.tags = mkTags fam n := by
  obtain ⟨conds, prio, en, m, kind, h1, h4, hall, hp1, hp2, hf, ht, heq⟩ :=
    generate_rule_spec n fam d iv s
  rw [heq, applyCorruption_tags]

theorem generate_rule_invalidOk (n : Nat) (fam : Str) (d : Bool) (s : Entropy) :
    invalidOkB (generate_rule n fam d true s).1 = true := by
  obtain ⟨conds, prio, en, m, kind, h1, h4, hall, hp1, hp2, hf, ht, heq⟩ :=
    generate_rule_spec n fam d true s
  rw [heq]
  cases conds with
  | nil => simp at h1
  | cons c cs =>
    have hne1 : ((prio : Nat) : Int) ≠ 1500 := by omega
    have hne2 : ((prio : Nat) : Int) ≠ -10 := by omega
    have hne3 : ((prio : Nat) : Int) ≠ -100 := by omega
    have hb : (c :: cs).all valueShapeOkB = true :=
      List.all_eq_true.mpr fun x hx => (hall x hx).1
    simp only [List.length_cons] at h4
    have hm := ht rfl
    fin_cases hm <;>
      simp +decide [applyCorruption, invalidOkB, corruptionCount, condsFullOkB,
        priorityInRangeB, hne1, hne2, hne3, hb] <;>
      omega

theorem tagsSpec_of_mkTags (r : Rule) (fam : Str) (n : Nat) (hfam : fam ∈ FAMILIES)
    (h : r.tags = mkTags fam n) : tagsSpec r fam n := by
  have hspec : ∀ f ∈ FAMILIES, f ≠ lit "production-critical" ∧
      f ≠ lit "high-priority" ∧ f ≠ lit "vectorized" := by decide
  obtain ⟨hf1, hf2, hf3⟩ := hspec fam hfam
  have hpcb : ∀ t : Str, lit "production-critical" ≠ lit "batch_" ++ t := by
    intro t
    have e1 : lit "production-critical" = 'p' :: lit "roduction-critical" := rfl
    have e2 : lit "batch_" ++ t = 'b' :: (lit "atch_" ++ t) := rfl
    rw [e1, e2]
    exact cons_ne_cons_of_head (by decide)
  have hhpb : ∀ t : Str, lit "high-priority" ≠ lit "batch_" ++ t := by
    intro t
    have e1 : lit "high-priority" = 'h' :: lit "igh-priority" := rfl
    have e2 : lit "batch_" ++ t = 'b' :: (lit "atch_" ++ t) := rfl
    rw [e1, e2]
    exact cons_ne_cons_of_head (by decide)
  have hvb : ∀ t : Str, lit "vectorized" ≠ lit "batch_" ++ t := by
    intro t
    have e1 : lit "vectorized" = 'v' :: lit "ectorized" := rfl
    have e2 : lit "batch_" ++ t = 'b' :: (lit "atch_" ++ t) := rfl
    rw [e1, e2]
    exact cons_ne_cons_of_head (by decide)
  unfold tagsSpec
  rw [h]
  unfold mkTags
  by_cases h10 : n % 10 = 0 <;> by_cases h7 : n % 7 = 0 <;>
    simp +decide [h10, h7, List.mem_append, List.mem_cons, Ne.symm hf1, Ne.symm hf2,
      Ne.symm hf3, hpcb _, hhpb _, hvb _]

theorem generate_rule_tagsSpec (n : Nat) (fam : Str) (d iv : Bool) (s : Entropy)
    (hfam : fam ∈ FAMILIES) : tagsSpec (generate_rule n fam d iv s).1 fam n :=
  tagsSpec_of_mkTags _ fam n hfam (generate_rule_tags n fam d iv s)

/-! ### Pipeline membership lemmas -/

theorem generateLoop_mem (k : Nat) :
    ∀ (i rule_num : Nat) (d iv : Bool) (s : Entropy),
      ∀ r ∈ (generateLoop k i rule_num d iv s).1,
        ∃ (n' : Nat) (fam : Str) (s' : Entropy),
          fam ∈ FAMILIES ∧ r = (generate_rule n' fam d iv s').1 := by
  induction k with
  | zero => intro i rule_num d iv s r hr; simp [generateLoop] at hr
  | succ k ih =>
    intro i rule_num d iv s r hr
    rw [generateLoop] at hr
    rcases List.mem_cons.mp hr with rfl | hr
    · have hlt : i % FAMILIES.length < FAMILIES.length := Nat.mod_lt _ (by decide)
      have hmem : FAMILIES.getD (i % FAMILIES.length) [] ∈ FAMILIES := by
        rw [List.getD_eq_getElem?_getD, List.getElem?_eq_getElem hlt]
        simp
      exact ⟨rule_num, _, s, hmem, rfl⟩
    · exact ih _ _ _ _ _ r hr

theorem generate_rules_mem (nv nd ni : Nat) (s : Entropy) :
    ∀ r ∈ (generate_rules nv nd ni s).1,
      ∃ (n' : Nat) (fam : Str) (d iv : Bool) (s' : Entropy),
        fam ∈ FAMILIES ∧ r = (generate_rule n' fam d iv s').1 := by
  intro r hr
  unfold generate_rules at hr
  dsimp only at hr
  rcases List.mem_append.mp hr with hr | hr
  · rcases List.mem_append.mp hr with hr | hr
    · obtain ⟨n', fam, s', hfam, heq⟩ := generateLoop_mem nv 0 1 false false s r hr
      exact ⟨n', fam, false, false, s', hfam, heq⟩
    · obtain ⟨n', fam, s', hfam, heq⟩ := generateLoop_mem nd 0 (nv + 1) true false _ r hr
      exact ⟨n', fam, true, false, s', hfam, heq⟩
  · obtain ⟨n', fam, s', hfam, heq⟩ := generateLoop_mem ni 0 (nv + nd + 1) false true _ r hr
    exact ⟨n', fam, false, true, s', hfam, heq⟩

theorem generate_test_file_mem (N : Int) (s : Entropy) :
    ∀ r ∈ (generate_test_file N s).1,
      ∃ (n' : Nat) (fam : Str) (d iv : Bool) (s' : Entropy),
        fam ∈ FAMILIES ∧ r = (generate_rule n' fam d iv s').1 := by
  intro r hr
  unfold generate_test_file at hr
  dsimp only at hr
  have hperm := pyShuffle_perm rule0
    (generate_rules (num_valid N).toNat (num_duplicates N).toNat
      (num_invalid N).toNat s).1
    (generate_rules (num_valid N).toNat (num_duplicates N).toNat
      (num_invalid N).toNat s).2
  exact generate_rules_mem _ _ _ _ r (hperm.mem_iff.mp hr)

/-! ### Counting lemmas for the stats object -/

theorem isPrefixOf_append_left_of_le (p q t : Str) (h : p.length ≤ q.length) :
    p.isPrefixOf (q ++ t) = p.isPrefixOf q := by
  induction p generalizing q with
  | nil => simp [List.isPrefixOf]
  | cons a as ih =>
    cases q with
    | nil => simp at h
    | cons b bs =>
      simp only [List.cons_append, List.isPrefixOf, List.append_eq]
      rw [ih bs (by simpa using h)]

theorem isPrefixOf_of_append (f g t : Str) (hlen : g.length ≤ f.length)
    (h : f.isPrefixOf (g ++ t) = true) : g.isPrefixOf f = true := by
  rw [ List.isPrefixOf_iff_prefix] at h ⊢
  exact List.prefix_of_prefix_length_le ( List.prefix_append g t) h hlen

theorem countP_families (fam : Str) (hfam : fam ∈ FAMILIES) (t : Str) :
    FAMILIES.countP (fun f => f.isPrefixOf (fam ++ t)) = 1 := by
  have hself : fam.isPrefixOf (fam ++ t) = true := by
    rw [ List.isPrefixOf_iff_prefix]
    exact List.prefix_append fam t
  have hd1 : ∀ f ∈ FAMILIES, ∀ g ∈ FAMILIES, f ≠ g → f.length ≤ g.length →
      f.isPrefixOf g = false := by decide
  have hd2 : ∀ f ∈ FAMILIES, ∀ g ∈ FAMILIES, g.length < f.length →
      g.isPrefixOf f = false := by decide
  have hother : ∀ f ∈ FAMILIES, f ≠ fam → f.isPrefixOf (fam ++ t) = false := by
    intro f hf hne
    by_cases hl : f.length ≤ fam.length
    · rw [isPrefixOf_append_left_of_le f fam t hl]
      exact hd1 f hf fam hfam hne hl
    · by_contra hcon
      rw [Bool.not_eq_false] at hcon
      have h2 := isPrefixOf_of_append f fam t (by omega) hcon
      rw [hd2 f hf fam hfam (by omega)] at h2
      exact Bool.false_ne_true h2
  have hcongr : ∀ f ∈ FAMILIES,
      (f.isPrefixOf (fam ++ t)) = (f == fam) := by
    intro f hf
    by_cases hfe : f = fam
    · subst hfe
      rw [hself]
      simp
    · rw [hother f hf hfe]
      simp [hfe]
  rw [List.countP_congr (fun x hx => by rw [hcongr x hx])]
  fin_cases hfam <;> decide

theorem code_countP (r : Rule)
    (h : r.rule_code = none ∨
      ∃ fam t, fam ∈ FAMILIES ∧ r.rule_code = some (fam ++ t)) :
    FAMILIES.countP (fun f => f.isPrefixOf (r.rule_code.getD [])) =
      if r.rule_code.isSome then 1 else 0 := by
  rcases h with h | ⟨fam, t, hfam, h⟩
  · rw [h]
    simp only [Option.getD_none, Option.isSome_none, Bool.false_eq_true, if_false]
    decide
  · rw [h]
    simp only [Option.getD_some, Option.isSome_some, if_true]
    exact countP_families fam hfam t

theorem sum_map_add_nat (l : List γ) (f g : γ → Nat) :
    (l.map (fun x => f x + g x)).sum = (l.map f).sum + (l.map g).sum := by
  induction l with
  | nil => rfl
  | cons x xs ih =>
    simp only [List.map_cons, List.sum_cons, ih]
    omega

theorem sum_map_ite_one (l : List β) (p : β → Bool) :
    (l.map (fun f => if p f then 1 else 0)).sum = l.countP p := by
  induction l with
  | nil => rfl
  | cons x xs ih =>
    rw [List.map_cons, List.sum_cons, ih, List.countP_cons]
    split <;> omega

theorem sum_filter_count (rules : List Rule) :
    (FAMILIES.map (fun f => familyCount rules f)).sum =
      (rules.map (fun r =>
        FAMILIES.countP (fun f => f.isPrefixOf (r.rule_code.getD [])))).sum := by
  unfold familyCount
  induction rules with
  | nil => simp
  | cons r rs ih =>
    have hstep : ∀ f : Str,
        ((r :: rs).filter (fun r' => f.isPrefixOf (r'.rule_code.getD []))).length =
          (if f.isPrefixOf (r.rule_code.getD []) then 1 else 0) +
            (rs.filter (fun r' => f.isPrefixOf (r'.rule_code.getD []))).length := by
      intro f
      rw [List.filter_cons]
      split
      · simp [Nat.add_comm]
      · simp
    simp only [hstep]
    rw [sum_map_add_nat, ih, sum_map_ite_one, List.map_cons, List.sum_cons]

theorem mapped_sum (rules : List Rule)
    (h : ∀ r ∈ rules, r.rule_code = none ∨
      ∃ fam t, fam ∈ FAMILIES ∧ r.rule_code = some (fam ++ t)) :
    (rules.map (fun r =>
        FAMILIES.countP (fun f => f.isPrefixOf (r.rule_code.getD [])))).sum +
      (rules.filter (fun r => r.rule_code.isNone)).length = rules.length := by
  induction rules with
  | nil => rfl
  | cons r rs ih =>
    rw [List.map_cons, List.sum_cons, List.filter_cons,
      code_countP r (h r (List.mem_cons_self r rs))]
    have hrec := ih (fun x hx => h x (List.mem_cons_of_mem _ hx))
    cases hc : r.rule_code with
    | none =>
      simp only [hc, Option.isSome_none, Option.isNone_none, Bool.false_eq_true,
        if_false, if_true, List.length_cons, List.length_cons]
      omega
    | some c =>
      simp only [hc, Option.isSome_some, Option.isNone_some, Bool.false_eq_true,
        if_false, if_true, List.length_cons]
      omega

theorem generateLoop_length (k : Nat) :
    ∀ (i m : Nat) (d iv : Bool) (s : Entropy),
      (generateLoop k i m d iv s).1.length = k := by
  induction k with
  | zero => intro i m d iv s; rfl
  | succ k ih =>
    intro i m d iv s
    rw [generateLoop]
    simp [ih]

theorem generate_rules_length (nv nd ni : Nat) (s : Entropy) :
    (generate_rules nv nd ni s).1.length = nv + nd + ni := by
  unfold generate_rules
  simp [generateLoop_length]
  omega

/-! ### Lemmas about str.replace for the stats filename -/

theorem replaceAll_eq_self (pat rep s : Str) (h : strContains pat s = false) :
    replaceAll pat rep s = s := by
  induction s with
  | nil => rw [replaceAll]
  | cons c cs ih =>
    rw [strContains] at h
    rw [Bool.or_eq_false_iff] at h
    rw [replaceAll, if_neg (fun hc => by rw [hc.2] at h; exact absurd h.1 (by simp))]
    rw [ih h.2]

theorem replaceAll_length_ge (pat rep : Str) (hlen : pat.length ≤ rep.length)
    (s : Str) : s.length ≤ (replaceAll pat rep s).length := by
  generalize hn : s.length = n
  induction n using Nat.strong_induction_on generalizing s with
  | _ n ih =>
    cases s with
    | nil =>
      rw [replaceAll]
      simp only [List.length_nil] at hn ⊢
      omega
    | cons c cs =>
      simp only [List.length_cons] at hn
      rw [replaceAll]
      split
      · rename_i hc
        have hple : pat.length ≤ cs.length + 1 := by
          have hp := ( List.isPrefixOf_iff_prefix).mp hc.2
          simpa using hp.length_le
        have hpat1 : 1 ≤ pat.length := by
          cases hp : pat
          · exact absurd hp hc.1
          · simp [hp]
        have hd : (((c :: cs).drop pat.length).length) < n := by
          simp only [List.length_drop, List.length_cons]
          omega
        have hrec := ih _ hd ((c :: cs).drop pat.length) rfl
        rw [List.length_append]
        simp only [List.length_drop, List.length_cons] at hrec
        omega
      · have hrec := ih cs.length (by omega) cs rfl
        simp only [List.length_cons]
        omega

theorem replaceAll_length_gt (pat rep : Str) (hlen : pat.length < rep.length)
    (hne : pat ≠ []) (s : Str) (h : strContains pat s = true) :
    s.length < (replaceAll pat rep s).length := by
  generalize hn : s.length = n
  induction n using Nat.strong_induction_on generalizing s with
  | _ n ih =>
    cases s with
    | nil =>
      rw [strContains] at h
      rw [List.isEmpty_iff] at h
      exact absurd h hne
    | cons c cs =>
      simp only [List.length_cons] at hn
      rw [replaceAll]
      by_cases hc : pat ≠ [] ∧ pat.isPrefixOf (c :: cs) = true
      · rw [if_pos hc]
        have hple : pat.length ≤ cs.length + 1 := by
          have hp := ( List.isPrefixOf_iff_prefix).mp hc.2
          simpa using hp.length_le
        have hpat1 : 1 ≤ pat.length := by
          cases hp : pat
          · exact absurd hp hne
          · simp [hp]
        have hge := replaceAll_length_ge pat rep (by omega) ((c :: cs).drop pat.length)
        rw [List.length_append]
        simp only [List.length_drop, List.length_cons] at hge
        omega
      · rw [if_neg hc]
        have hpre : pat.isPrefixOf (c :: cs) = false := by
          by_contra hcon
          rw [Bool.not_eq_false] at hcon
          exact hc ⟨hne, hcon⟩
        rw [strContains, hpre] at h
        simp only [Bool.false_or] at h
        have hrec := ih cs.length (by omega) cs h rfl
        simp only [List.length_cons]
        omega

/-! ### Partition-size lemmas -/

theorem num_duplicates_nonneg (N : Int) (h : 0 ≤ N) : 0 ≤ num_duplicates N := by
  unfold num_duplicates
  rw [if_pos h]
  exact Int.natCast_nonneg _

theorem num_invalid_nonneg (N : Int) (h : 0 ≤ N) : 0 ≤ num_invalid N := by
  unfold num_invalid
  rw [if_pos h]
  exact Int.natCast_nonneg _

theorem generate_test_file_length (N : Int) (s : Entropy) (h1 : 0 ≤ N)
    (h2 : num_duplicates N + num_invalid N ≤ N) :
    (((generate_test_file N s).1.length : Int)) = N := by
  unfold generate_test_file
  dsimp only
  rw [(pyShuffle_perm rule0 _ _).length_eq, generate_rules_length]
  have d0 := num_duplicates_nonneg N h1
  have i0 := num_invalid_nonneg N h1
  unfold num_valid
  omega

/-! ### Claim theorems -/

/-- C1 counterexample: the claim says `duplicates = floor(0.05 * totalCount)`
for every totalCount ≥ 1, but line 151 computes `int(total_rules * 0.05)` in
IEEE-754 double arithmetic; at totalCount = 90071992547410040 (which is
20 * 4503599627370502, so the exact floor is 4503599627370502) the float
product rounds up and the code yields 4503599627370503. -/
theorem c1_floor_counterexample :
    ¬ (num_duplicates 90071992547410040 = (90071992547410040 : Int) / 20) := by
  decide

/-- C1 (amended): for every totalCount ≥ 1 the three partition sizes sum to
exactly totalCount (valid is defined as the difference), and for
totalCount = 100 the partition is valid=92, duplicate=5, invalid=3, which
matches the floors floor(0.05*100)=5 and floor(0.03*100)=3; the floor
formula, however, does not hold for every totalCount (see the
counterexample). -/
theorem c1_partition_sizes (N : Int) (_h : 1 ≤ N) :
    num_valid N + num_duplicates N + num_invalid N = N ∧
      num_duplicates 100 = 5 ∧ num_invalid 100 = 3 ∧ num_valid 100 = 92 := by
  refine ⟨?_, by decide, by decide, by decide⟩
  unfold num_valid
  ring

theorem c1_partition_sizes_witness :
    1 ≤ (100 : Int) ∧
      (num_valid 100 + num_duplicates 100 + num_invalid 100 = 100 ∧
        num_duplicates 100 = 5 ∧ num_invalid 100 = 3 ∧ num_valid 100 = 92) :=
  ⟨by decide, c1_partition_sizes 100 (by decide)⟩

set_option maxRecDepth 100000 in
/-- C2 (code evaluated at the failing input): with totalCount = 40 the
partition is 37 valid / 2 duplicate / 1 invalid, so the records at
generation indices 37 and 38 (0-based) form the duplicate partition.  With
the all-zeros draw stream, the second duplicate (generation number 39,
family customer_segmentation, offset 100, duplicate_num max(1,39-100)=1)
gets rule_code "customer_segmentation.rule_0001", and none of the 38
earlier-generated records bears that rule_code (rule 1 is
"fraud_detection.rule_0001"; customer_segmentation valid rules have numbers
2, 12, 22, 32): the family round-robin misaligns, so the "duplicate" record
collides with nothing. -/
theorem c2_duplicate_no_collision :
    num_duplicates 40 = 2 ∧ num_invalid 40 = 1 ∧ num_valid 40 = 37 ∧
      ((generate_rules 37 2 1 []).1.getD 38 rule0).rule_code =
        some (lit "customer_segmentation.rule_0001") ∧
      (((generate_rules 37 2 1 []).1.take 38).filter (fun r =>
          decide (r.rule_code = some (lit "customer_segmentation.rule_0001")))).length
        = 0 := by
  decide

/-- C3: every emitted record whose conditions are present and nonempty has
1 to 4 conditions, each with its value shaped per its operator (BETWEEN:
two numeric entries, first ≤ second; IS_ANY_OF / IS_NONE_OF: 2-4 entries). -/
theorem c3_condition_shapes (N : Int) (s : Entropy) :
    ∀ r ∈ (generate_test_file N s).1, condsOkB r = true := by
  intro r hr
  obtain ⟨n', fam, d, iv, s', _, heq⟩ := generate_test_file_mem N s r hr
  rw [heq]
  exact generate_rule_condsOk n' fam d iv s'

set_option maxRecDepth 100000 in
theorem c3_condition_shapes_witness :
    condsOkB ((generate_test_file 1 []).1.getD 0 rule0) = true :=
  c3_condition_shapes 1 [] _ (by decide)

/-- C4: every record generated with is_invalid=true (the invalid partition
is exactly the third generation loop, which runs with is_duplicate=false,
is_invalid=true) exhibits exactly one of the seven corruptions, and the
fields not targeted by it remain well-formed. -/
theorem c4_invalid_one_corruption (k i n : Nat) (s : Entropy) :
    ∀ r ∈ (generateLoop k i n false true s).1, invalidOkB r = true := by
  intro r hr
  obtain ⟨n', fam, s', _, heq⟩ := generateLoop_mem k i n false true s r hr
  rw [heq]
  exact generate_rule_invalidOk n' fam false s'

set_option maxRecDepth 100000 in
theorem c4_invalid_one_corruption_witness :
    invalidOkB ((generateLoop 1 0 1 false true []).1.getD 0 rule0) = true :=
  c4_invalid_one_corruption 1 0 1 [] _ (by decide)

/-- C6: the generator is a pure function of its entropy source (the seeded
PRNG) and totalCount: equal seeds and counts give identical shuffled record
sequences and identical stats. -/
theorem c6_deterministic (N1 N2 : Int) (s1 s2 : Entropy)
    (hN : N1 = N2) (hs : s1 = s2) :
    (generate_test_file N1 s1).1 = (generate_test_file N2 s2).1 ∧
      (generate_test_file N1 s1).2 = (generate_test_file N2 s2).2 := by
  subst hN
  subst hs
  exact ⟨rfl, rfl⟩

theorem c6_deterministic_witness :
    (generate_test_file 1 []).1 = (generate_test_file 1 []).1 ∧
      (generate_test_file 1 []).2 = (generate_test_file 1 []).2 :=
  c6_deterministic 1 1 [] [] rfl rfl

/-- C7: every generated record's tags contain its family name and the
batch bucket tag; they contain both "production-critical" and
"high-priority" exactly when the rule number is divisible by 10, and
"vectorized" exactly when it is divisible by 7 (corruption never touches
tags). -/
theorem c7_tag_contract (n : Nat) (fam : Str) (d iv : Bool) (s : Entropy)
    (hfam : fam ∈ FAMILIES) :
    tagsSpec (generate_rule n fam d iv s).1 fam n :=
  generate_rule_tagsSpec n fam d iv s hfam

theorem c7_tag_contract_witness :
    lit "fraud_detection" ∈ FAMILIES ∧
      tagsSpec (generate_rule 1 (lit "fraud_detection") false false []).1
        (lit "fraud_detection") 1 :=
  ⟨by decide, c7_tag_contract 1 (lit "fraud_detection") false false [] (by decide)⟩

set_option maxRecDepth 100000 in
/-- C8 (code evaluated at the failing input): the generator performs no
input validation: for totalCount = -100 it computes the negative partition
sizes duplicates=-5, invalid=-3, valid=-92 (Python range() on a negative
count is empty), silently writes an empty rules file, and emits stats
claiming -92 valid rules out of -100 total, instead of rejecting the input. -/
theorem c8_no_input_validation :
    num_duplicates (-100) = -5 ∧ num_invalid (-100) = -3 ∧
      num_valid (-100) = -92 ∧
      (generate_test_file (-100) []).1 = [] ∧
      (generate_test_file (-100) []).2.valid_rules = -92 ∧
      (generate_test_file (-100) []).2.total_rules = -100 := by
  decide

/-- C9: every emitted condition with operator IS_ANY_OF or IS_NONE_OF has
pairwise-distinct values drawn from the fixed 7 country codes, and every
BETWEEN condition has max - min in [1000, 5000], hence min < max. -/
theorem c9_value_vocabulary (N : Int) (s : Entropy) :
    ∀ r ∈ (generate_test_file N s).1, strongCondsOkB r = true := by
  intro r hr
  obtain ⟨n', fam, d, iv, s', _, heq⟩ := generate_test_file_mem N s r hr
  rw [heq]
  exact generate_rule_strongOk n' fam d iv s'

set_option maxRecDepth 100000 in
theorem c9_value_vocabulary_witness :
    strongCondsOkB ((generate_test_file 1 []).1.getD 0 rule0) = true :=
  c9_value_vocabulary 1 [] _ (by decide)

/-- C10: the stats path is the output filename with every ".jsonl" replaced
by "_stats.json"; when the filename does not contain ".jsonl" the
replacement is a no-op and the stats path equals the output path (so the
stats JSON overwrites the rules file); when it does contain ".jsonl" the
two paths differ. -/
theorem c10_stats_filename (f : Str) :
    (strContains (lit ".jsonl") f = false → stats_filename f = f) ∧
      (strContains (lit ".jsonl") f = true → stats_filename f ≠ f) := by
  constructor
  · intro h
    exact replaceAll_eq_self _ _ f h
  · intro h heq
    have hgt := replaceAll_length_gt (lit ".jsonl") (lit "_stats.json")
      (by decide) (by decide) f h
    unfold stats_filename at heq
    rw [heq] at hgt
    omega

theorem c10_stats_filename_witness :
    (strContains (lit ".jsonl") (lit "out.txt") = false ∧
        stats_filename (lit "out.txt") = lit "out.txt") ∧
      (strContains (lit ".jsonl") (lit "rules.jsonl") = true ∧
        stats_filename (lit "rules.jsonl") ≠ lit "rules.jsonl") :=
  ⟨⟨by decide, (c10_stats_filename (lit "out.txt")).1 (by decide)⟩,
   ⟨by decide, (c10_stats_filename (lit "rules.jsonl")).2 (by decide)⟩⟩

/-- C5: all 10 families are present as keys of the stats families map (in
order); every emitted record that has a rule_code starts with exactly one
family name, so it contributes to exactly one family count; the family
counts plus the number of records lacking rule_code sum to exactly
total_rules, hence the counts sum to at most total_rules.  The hypothesis
`num_duplicates N + num_invalid N ≤ N` (true for every actual input, e.g.
totalCount = 1, 100 or 3000, but a global proof would need a full
floating-point error analysis of lines 151-152) rules out degenerate
partitions where the empty valid range truncates the record list. -/
theorem c5_stats_counts (N : Int) (s : Entropy) (h1 : 1 ≤ N)
    (h2 : num_duplicates N + num_invalid N ≤ N) :
    ((generate_test_file N s).2.families.map Prod.fst = FAMILIES) ∧
      (∀ r ∈ (generate_test_file N s).1, r.rule_code.isSome = true →
        FAMILIES.countP (fun f => f.isPrefixOf (r.rule_code.getD [])) = 1) ∧
      ((((generate_test_file N s).2.families.map Prod.snd).sum : Int) +
          (((generate_test_file N s).1.filter
            (fun r => r.rule_code.isNone)).length : Int) =
        (generate_test_file N s).2.total_rules) ∧
      ((((generate_test_file N s).2.families.map Prod.snd).sum : Int) ≤
        (generate_test_file N s).2.total_rules) := by
  have hshape : ∀ r ∈ (generate_test_file N s).1, r.rule_code = none ∨
      ∃ fam t, fam ∈ FAMILIES ∧ r.rule_code = some (fam ++ t) := by
    intro r hr
    obtain ⟨n', fam, d, iv, s', hfam, heq⟩ := generate_test_file_mem N s r hr
    rcases generate_rule_code_shape n' fam d iv s' with hc | ⟨t, hc⟩
    · left
      rw [heq]
      exact hc
    · right
      exact ⟨fam, t, hfam, by rw [heq]; exact hc⟩
  have hkeys : (generate_test_file N s).2.families.map Prod.fst = FAMILIES := by
    unfold generate_test_file
    dsimp only
    rw [List.map_map]
    rfl
  have hcount1 : ∀ r ∈ (generate_test_file N s).1, r.rule_code.isSome = true →
      FAMILIES.countP (fun f => f.isPrefixOf (r.rule_code.getD [])) = 1 := by
    intro r hr hsome
    rcases hshape r hr with hc | ⟨fam, t, hfam, hc⟩
    · rw [hc] at hsome
      simp at hsome
    · rw [hc]
      simp only [Option.getD_some]
      exact countP_families fam hfam t
  have hsnd : (generate_test_file N s).2.families.map Prod.snd =
      FAMILIES.map (fun f => familyCount (generate_test_file N s).1 f) := by
    unfold generate_test_file
    dsimp only
    rw [List.map_map]
    rfl
  have hsum := sum_filter_count (generate_test_file N s).1
  have hms := mapped_sum (generate_test_file N s).1 hshape
  have hlen := generate_test_file_length N s (by omega) h2
  have htot : (generate_test_file N s).2.total_rules = N := by
    unfold generate_test_file
    dsimp only
  refine ⟨hkeys, hcount1, ?_, ?_⟩
  · rw [hsnd, htot, hsum]
    omega
  · rw [hsnd, htot, hsum]
    omega

set_option maxRecDepth 100000 in
theorem c5_stats_counts_witness :
    (1 ≤ (1 : Int)) ∧ (num_duplicates 1 + num_invalid 1 ≤ 1) ∧
      (((generate_test_file 1 []).2.families.map Prod.fst = FAMILIES) ∧
        (∀ r ∈ (generate_test_file 1 []).1, r.rule_code.isSome = true →
          FAMILIES.countP (fun f => f.isPrefixOf (r.rule_code.getD [])) = 1) ∧
        ((((generate_test_file 1 []).2.families.map Prod.snd).sum : Int) +
            (((generate_test_file 1 []).1.filter
              (fun r => r.rule_code.isNone)).length : Int) =
          (generate_test_file 1 []).2.total_rules) ∧
        ((((generate_test_file 1 []).2.families.map Prod.snd).sum : Int) ≤
          (generate_test_file 1 []).2.total_rules)) :=
  ⟨by decide, by decide, c5_stats_counts 1 [] (by decide) (by decide)⟩
